import Mathlib

/-!
Verification of the access-decision layer in `edx_rbac/utils.py`.

The Python module is shallowly embedded as follows:
* Python dicts (the decoded JWT, the `SYSTEM_TO_FEATURE_ROLE_MAPPING`
  setting, and the `defaultdict(list)` built by `feature_roles_from_jwt`)
  are association lists `List (String × α)` with first-match lookup and
  insertion-order keys, exactly mirroring dict iteration/lookup.
* Python truthiness of optional string arguments (`if not context`) is made
  explicit: `None` and the empty string are falsy.
* `str.partition(':')` is `pyPartition`, splitting at the first colon.
* Python sets used only for membership tests are lists; membership is the
  only operation the source performs on them.
* The dynamic resolution machinery in `create_role_auth_claim_for_user`
  (`importlib.import_module` + `getattr`, with `apps.get_model` as the
  fallback) lives outside this repository; it is modelled as a
  `ResolutionEnv` with one field per resolution strategy, where `none`
  stands for a raised `ImportError`/`AttributeError` on the callable path
  and `Except.error` stands for an exception raised by the model path.
* The ambient Django settings are passed explicitly as arguments
  (`mapping` for `SYSTEM_TO_FEATURE_ROLE_MAPPING`, `systemWideRoleClasses`
  for `SYSTEM_WIDE_ROLE_CLASSES`).
-/

namespace EdxRbac

/-- Embeds `ALL_ACCESS_CONTEXT = '*'`: the wildcard context granting access
to all contexts. -/
def ALL_ACCESS_CONTEXT : String := "*"

/-- Python truthiness of an optional string value: `None` and `''` are
falsy, every other string is truthy. -/
def strTruthy : Option String → Bool
  | Option.none => false
  | Option.some s => if s = "" then false else true

/-- Helper for `str.partition`: split a character list at the first
occurrence of `sep`, returning the parts before and after it (the whole
list and `[]` when `sep` does not occur). -/
def partitionAux (sep : Char) : List Char → List Char × List Char
  | [] => ([], [])
  | c :: cs =>
    if c = sep then ([], cs)
    else
      let p := partitionAux sep cs
      (c :: p.1, p.2)

/-- Embeds `s.partition(sep)` restricted to the two components the source
reads: the text before the first `sep` and the text after it. -/
def pyPartition (s : String) (sep : Char) : String × String :=
  let p := partitionAux sep s.toList
  (String.mk p.1, String.mk p.2)

/-- Dict lookup: first entry whose key equals `k` (Python dict keys are
unique, so first-match lookup is exact). -/
def assocGet {α : Type} (k : String) : List (String × α) → Option α
  | [] => Option.none
  | p :: rest => if p.1 = k then Option.some p.2 else assocGet k rest

/-- Embeds `feature_roles[k].append(c)` on a `defaultdict(list)`: append
`c` to the list stored at `k`, creating the entry `[c]` when `k` is
absent. -/
def dictAppend (k : String) (c : String) : List (String × List String) → List (String × List String)
  | [] => [(k, [c])]
  | p :: rest =>
    if p.1 = k then (p.1, p.2 ++ [c]) :: rest
    else p :: dictAppend k c rest

/-- The `SYSTEM_TO_FEATURE_ROLE_MAPPING` setting: system role name to list
of feature role names. -/
abbrev SystemMapping := List (String × List String)

/-- A decoded JWT: a dict from claim names to lists of strings (only the
`roles` claim is ever read, and per the spec it holds a list of role claim
entry strings). -/
abbrev Jwt := List (String × List String)

/-- Processing of one entry of the JWT `roles` claim inside
`feature_roles_from_jwt`: partition on the first colon, look the role name
up in the mapping, and append the context to every mapped feature role. -/
def extractEntry (mapping : SystemMapping) (featureRoles : List (String × List String))
    (roleData : String) : List (String × List String) :=
  let p := pyPartition roleData ':'
  ((assocGet p.1 mapping).getD []).foldl (fun fr role => dictAppend role p.2 fr) featureRoles

/-- Embeds `feature_roles_from_jwt(decoded_jwt)`: fold `extractEntry` over
`decoded_jwt.get('roles', [])`, starting from an empty `defaultdict`. -/
def feature_roles_from_jwt (mapping : SystemMapping) (decodedJwt : Jwt) :
    List (String × List String) :=
  ((assocGet "roles" decodedJwt).getD []).foldl (extractEntry mapping) []

/-- Embeds `request_user_has_implicit_access_via_jwt(decoded_jwt, role_name,
context)`. The token argument is `Option Jwt`: `none` is Python `None`,
`some []` is the empty dict; both are falsy. -/
def request_user_has_implicit_access_via_jwt (mapping : SystemMapping)
    (decodedJwt : Option Jwt) (roleName : String) (context : Option String) : Bool :=
  match decodedJwt with
  | Option.none => false
  | Option.some jwt =>
    if jwt = [] then false
    else
      let featureRoles := feature_roles_from_jwt mapping jwt
      match assocGet roleName featureRoles with
      | Option.some ctxs =>
        if strTruthy context then
          decide (context.getD "" ∈ ctxs) || decide (ALL_ACCESS_CONTEXT ∈ ctxs)
        else true
      | Option.none => false

/-- A Django user as seen by `user_has_access_via_database`: only the
`is_anonymous` attribute is read, via `getattr(user, 'is_anonymous', False)`.
`none` models a user object lacking the attribute. -/
structure PyUser where
  is_anonymous : Option Bool
deriving DecidableEq

/-- The value returned by a role assignment's `get_context()`: either a
single context string or a collection of context strings. -/
inductive DbContext where
  | single (s : String)
  | many (contexts : List String)
deriving DecidableEq

/-- One step of building `assigned_contexts`: `add` for a scalar string,
`update` for a collection (the Python set is modelled as a list, membership
being the only operation performed on it). -/
def addAssignmentContexts (s : List String) : DbContext → List String
  | DbContext.single c => s ++ [c]
  | DbContext.many l => s ++ l

/-- The `assigned_contexts` set accumulated over all matching role
assignments. -/
def allAssignedContexts (roleAssignments : List DbContext) : List String :=
  roleAssignments.foldl addAssignmentContexts []

/-- Body of `user_has_access_via_database` after the anonymity guard: deny
when the queryset is empty, grant when no context was supplied, otherwise
match the context against the accumulated context set. -/
def assignmentsDecision (roleAssignments : List DbContext) (context : Option String) : Bool :=
  if roleAssignments = [] then false
  else if strTruthy context then
    let assignedContexts := allAssignedContexts roleAssignments
    decide (context.getD "" ∈ assignedContexts) || decide (ALL_ACCESS_CONTEXT ∈ assignedContexts)
  else true

/-- Embeds `user_has_access_via_database(user, role_name,
role_assignment_class, context)`. The collaborator
`role_assignment_class.objects.filter(user=user, role__name=role_name)` is
the function argument `filterAssignments`, returning the matching
assignments (each represented by its `get_context()` value). -/
def user_has_access_via_database (user : PyUser) (roleName : String)
    (filterAssignments : PyUser → String → List DbContext) (context : Option String) : Bool :=
  if user.is_anonymous.getD false then false
  else assignmentsDecision (filterAssignments user roleName) context

/-- The `context` value yielded by a role source alongside a role string:
Python `None`, a scalar string, or a non-string iterable of strings. -/
inductive PyContext where
  | null
  | str (s : String)
  | many (items : List String)
deriving DecidableEq

/-- Embeds the inner helper `append_role_auth_claim(role_string, context)`:
append `role_string:context` when the context is truthy, the bare role
string otherwise. -/
def append_role_auth_claim (roleAuthClaim : List String) (roleString : String)
    (context : Option String) : List String :=
  if strTruthy context then roleAuthClaim ++ [roleString ++ ":" ++ context.getD ""]
  else roleAuthClaim ++ [roleString]

/-- Embeds the per-pair body of the claim-building loop: `if context:` with
the string/iterable dispatch, falling back to the bare role string when the
context is falsy (`None`, `''`, or an empty iterable). -/
def processRolePair (roleAuthClaim : List String) (roleString : String) :
    PyContext → List String
  | PyContext.null => append_role_auth_claim roleAuthClaim roleString Option.none
  | PyContext.str s =>
    if s = "" then append_role_auth_claim roleAuthClaim roleString Option.none
    else append_role_auth_claim roleAuthClaim roleString (Option.some s)
  | PyContext.many items =>
    if items = [] then append_role_auth_claim roleAuthClaim roleString Option.none
    else items.foldl (fun cl item => append_role_auth_claim cl roleString (Option.some item)) roleAuthClaim

/-- A resolved role source: given a user, the sequence of (role string,
context) pairs it yields. -/
abbrev RoleFunc := PyUser → List (String × PyContext)

/-- Environment for resolving a role source locator from
`SYSTEM_WIDE_ROLE_CLASSES`. `importCallable` models
`importlib.import_module` + `getattr` (`none` = raised
`ImportError`/`AttributeError`); `getModel` models
`apps.get_model(...)...get_assignments`, whose own failures are raised,
not caught. -/
structure ResolutionEnv where
  importCallable : String → Option RoleFunc
  getModel : String → Except String RoleFunc

/-- Embeds the try/except resolution of one locator: try the callable path
first; on `ImportError`/`AttributeError` fall back to the model path, whose
outcome (success or raised exception) is final. -/
def resolveRoleSource (env : ResolutionEnv) (systemRoleLoc : String) : Except String RoleFunc :=
  match env.importCallable systemRoleLoc with
  | Option.some roleFunc => Except.ok roleFunc
  | Option.none => env.getModel systemRoleLoc

/-- Embeds `create_role_auth_claim_for_user(user)`: walk the configured
locators in order, resolve each, and fold the per-pair appending over the
pairs each resolved source yields; a resolution failure propagates. -/
def create_role_auth_claim_for_user (env : ResolutionEnv)
    (systemWideRoleClasses : List String) (user : PyUser) : Except String (List String) :=
  systemWideRoleClasses.foldlM
    (fun roleAuthClaim systemRoleLoc => do
      let roleFunc ← resolveRoleSource env systemRoleLoc
      pure ((roleFunc user).foldl (fun cl p => processRolePair cl p.1 p.2) roleAuthClaim))
    []

/-- Reference definition following the spec text of the Claim Role
Extractor, per entry: split the entry on the first colon, look the name up
in the static mapping, and contribute the context once per occurrence of
the requested feature role in the mapped list. -/
def entryContexts (mapping : SystemMapping) (featureRole : String) (entry : String) :
    List String :=
  let p := pyPartition entry ':'
  ((assocGet p.1 mapping).getD []).filterMap
    (fun f => if f = featureRole then Option.some p.2 else Option.none)

/-- Reference definition following the spec text of the Claim Role
Extractor: the context list of a feature role is the concatenation, in
entry order, of the contributions of the entries of the `roles` claim
(absent claim treated as empty). -/
def featureRoleContextsSpec (mapping : SystemMapping) (decodedJwt : Jwt)
    (featureRole : String) : List String :=
  ((assocGet "roles" decodedJwt).getD []).flatMap (entryContexts mapping featureRole)

/-- Claim entries the builder appends for a single yielded (role, context)
pair. -/
def pairClaimEntries (roleString : String) (ctx : PyContext) : List String :=
  processRolePair [] roleString ctx

/-- The claim list built from the pairs yielded by a single role source. -/
def buildRoleAuthClaim (pairs : List (String × PyContext)) : List String :=
  pairs.foldl (fun cl p => processRolePair cl p.1 p.2) []

/-- Contexts a yielded pair advertises for round-tripping purposes: `None`
and the empty iterable stand for the unscoped grant, encoded by the empty
context string on the extraction side. -/
def yieldedContexts : PyContext → List String
  | PyContext.null => [""]
  | PyContext.str s => [s]
  | PyContext.many items => if items = [] then [""] else items

/-- Feature-role context associations advertised by a list of yielded
(role, context) pairs under the configured mapping: one contribution per
pair, per advertised context, per occurrence of the feature role in the
mapped list. -/
def advertisedContexts (mapping : SystemMapping) (featureRole : String)
    (pairs : List (String × PyContext)) : List String :=
  pairs.flatMap (fun p =>
    (yieldedContexts p.2).flatMap (fun item =>
      ((assocGet p.1 mapping).getD []).filterMap
        (fun f => if f = featureRole then Option.some item else Option.none)))

/-! Lemmas about the association-list operations. -/

/-- Lookup after a `defaultdict` append: the appended key now maps to its
previous list (empty when absent) extended by the new context; other keys
are untouched. -/
theorem assocGet_dictAppend (k c kq : String) (m : List (String × List String)) :
    assocGet kq (dictAppend k c m) =
      if kq = k then Option.some ((assocGet kq m).getD [] ++ [c]) else assocGet kq m := by
  induction m with
  | nil =>
    by_cases h : kq = k
    · subst h; simp [dictAppend, assocGet]
    · have h2 : ¬ k = kq := fun hh => h hh.symm
      simp [dictAppend, assocGet, h, h2]
  | cons p rest ih =>
    by_cases hpk : p.1 = k
    · by_cases hq : kq = k
      · subst hq
        simp [dictAppend, assocGet, hpk]
      · have hpq : ¬ p.1 = kq := fun hh => hq (hh ▸ hpk)
        have hq2 : ¬ k = kq := fun hh => hq hh.symm
        simp [dictAppend, assocGet, hpk, hpq, hq, hq2]
    · by_cases hpq : p.1 = kq
      · have hq : ¬ kq = k := fun hh => hpk (hpq.trans hh)
        simp [dictAppend, assocGet, hpk, hpq, hq]
      · simp [dictAppend, assocGet, hpk, hpq, ih]

/-- Generic description of folding a map-updating step over a list: if each
step extends the list stored at `F` by `contrib b`, the whole fold extends
it by the concatenation of all contributions (and leaves `F` absent when
nothing contributes to it). -/
theorem assocGet_foldl_contrib {β : Type} (F : String)
    (step : List (String × List String) → β → List (String × List String))
    (contrib : β → List String)
    (hstep : ∀ m b, assocGet F (step m b) =
      if contrib b = [] then assocGet F m
      else Option.some ((assocGet F m).getD [] ++ contrib b)) :
    ∀ (l : List β) (m : List (String × List String)),
      assocGet F (l.foldl step m) =
        if l.flatMap contrib = [] then assocGet F m
        else Option.some ((assocGet F m).getD [] ++ l.flatMap contrib) := by
  intro l
  induction l with
  | nil => intro m; simp
  | cons b rest ih =>
    intro m
    rw [List.foldl_cons, ih (step m b), List.flatMap_cons]
    by_cases hb : contrib b = []
    · simp [hb, hstep]
    · by_cases hr : rest.flatMap contrib = []
      · simp [hb, hr, hstep m b]
      · simp [hb, hr, hstep m b, List.append_assoc]

/-- `filterMap` of a point filter is `flatMap` of the corresponding
singleton-or-empty function. -/
theorem filterMap_point_eq_flatMap (mapped : List String) (F c : String) :
    mapped.filterMap (fun f => if f = F then Option.some c else Option.none)
      = mapped.flatMap (fun f => if f = F then [c] else []) := by
  induction mapped with
  | nil => simp
  | cons a rest ih =>
    by_cases h : a = F <;> simp [List.filterMap_cons, h, ih]

/-- Lookup after processing one `roles` entry: the entry extends the list
stored at `F` by exactly its `entryContexts` contribution. -/
theorem assocGet_extractEntry (mapping : SystemMapping) (F : String)
    (m : List (String × List String)) (entry : String) :
    assocGet F (extractEntry mapping m entry) =
      if entryContexts mapping F entry = [] then assocGet F m
      else Option.some ((assocGet F m).getD [] ++ entryContexts mapping F entry) := by
  have hstep : ∀ (mm : List (String × List String)) (role : String),
      assocGet F (dictAppend role (pyPartition entry ':').2 mm) =
        if (if role = F then [(pyPartition entry ':').2] else []) = [] then assocGet F mm
        else Option.some ((assocGet F mm).getD [] ++
          (if role = F then [(pyPartition entry ':').2] else [])) := by
    intro mm role
    rw [assocGet_dictAppend]
    by_cases h : role = F
    · simp [h]
    · have h2 : ¬ F = role := fun hh => h hh.symm
      simp [h, h2]
  have h2 := assocGet_foldl_contrib F
    (fun fr role => dictAppend role (pyPartition entry ':').2 fr)
    (fun role => if role = F then [(pyPartition entry ':').2] else [])
    hstep ((assocGet (pyPartition entry ':').1 mapping).getD []) m
  simp only [extractEntry, entryContexts]
  rw [h2, filterMap_point_eq_flatMap]

/-- Characterization of the Claim Role Extractor against the spec's
reference definition: looking a feature role up in the built map yields
exactly the context list prescribed by `featureRoleContextsSpec`, the key
being absent precisely when that list is empty. -/
theorem assocGet_feature_roles (mapping : SystemMapping) (jwt : Jwt) (F : String) :
    assocGet F (feature_roles_from_jwt mapping jwt) =
      if featureRoleContextsSpec mapping jwt F = [] then Option.none
      else Option.some (featureRoleContextsSpec mapping jwt F) := by
  have h := assocGet_foldl_contrib F (extractEntry mapping) (entryContexts mapping F)
    (fun m e => assocGet_extractEntry mapping F m e)
    ((assocGet "roles" jwt).getD []) []
  simp only [feature_roles_from_jwt, featureRoleContextsSpec]
  rw [h]
  simp [assocGet]

/-- The context list stored for a feature role (empty when absent) is the
spec's reference context list. -/
theorem getD_feature_roles (mapping : SystemMapping) (jwt : Jwt) (F : String) :
    (assocGet F (feature_roles_from_jwt mapping jwt)).getD []
      = featureRoleContextsSpec mapping jwt F := by
  rw [assocGet_feature_roles]
  by_cases h : featureRoleContextsSpec mapping jwt F = [] <;> simp [h]

/-- An empty token dict extracts to an empty feature-role map. -/
theorem feature_roles_empty (mapping : SystemMapping) :
    feature_roles_from_jwt mapping [] = [] := rfl

/-- C2: for every decoded token, the Claim Role Extractor equals the
reference definition read off the spec: a missing `roles` entry is an empty
sequence, each entry is split on its first colon, the static mapping is
looked up, and the context is appended to every mapped feature role's
context list in insertion order with duplicates kept; unmapped entries
contribute nothing. Lookup in the built map returns exactly the reference
context list, the key being present precisely when that list is
non-empty. -/
theorem feature_roles_matches_spec (mapping : SystemMapping) (jwt : Jwt) (F : String) :
    assocGet F (feature_roles_from_jwt mapping jwt) =
      if featureRoleContextsSpec mapping jwt F = [] then Option.none
      else Option.some (featureRoleContextsSpec mapping jwt F) :=
  assocGet_feature_roles mapping jwt F

/-- C5: for every token and feature-role name absent from the token's
extracted feature-role map, claims-path evaluation returns denied for every
context, including no context. -/
theorem claims_eval_absent_role (mapping : SystemMapping) (T : Jwt) (R : String)
    (ctx : Option String)
    (h : assocGet R (feature_roles_from_jwt mapping T) = Option.none) :
    request_user_has_implicit_access_via_jwt mapping (Option.some T) R ctx = false := by
  by_cases hT : T = []
  · subst hT
    simp [request_user_has_implicit_access_via_jwt]
  · simp [request_user_has_implicit_access_via_jwt, hT, h]

/-- Witness for C5 at a token whose only role has no configured mapping. -/
theorem claims_eval_absent_role_witness :
    assocGet "coupon-management"
        (feature_roles_from_jwt [("enterprise_admin", ["coupon-management"])]
          [("roles", ["unmapped_role:acct-1"])]) = Option.none ∧
    request_user_has_implicit_access_via_jwt [("enterprise_admin", ["coupon-management"])]
        (Option.some [("roles", ["unmapped_role:acct-1"])]) "coupon-management"
        (Option.some "acct-1") = false :=
  ⟨by decide, claims_eval_absent_role _ _ _ _ (by decide)⟩

/-- C6: an empty or null decoded token makes claims-path evaluation return
denied for every feature-role name and context, for every configured
mapping (the extractor's output cannot influence the result). -/
theorem claims_eval_empty_token (mapping : SystemMapping) (R : String) (ctx : Option String) :
    request_user_has_implicit_access_via_jwt mapping Option.none R ctx = false ∧
    request_user_has_implicit_access_via_jwt mapping (Option.some []) R ctx = false := by
  exact ⟨rfl, by simp [request_user_has_implicit_access_via_jwt]⟩

/-- Counterexample to C1 as stated: with mapping `enterprise_admin ↦
[coupon-management]` and token roles `["enterprise_admin:acct-42"]`, the
extracted contexts are exactly `["acct-42"]`, yet evaluation at the empty
context (not among the contexts, not the wildcard) is granted, because the
code treats a falsy context as "no context supplied"; and with token roles
`["enterprise_admin:*"]`, the context `acct-1` is outside the extracted
context list and differs from the wildcard, yet evaluation is granted,
because the wildcard sits inside the list. -/
theorem claims_eval_present_role_cex :
    (assocGet "coupon-management"
        (feature_roles_from_jwt [("enterprise_admin", ["coupon-management"])]
          [("roles", ["enterprise_admin:acct-42"])]) = Option.some ["acct-42"] ∧
      ¬ "" ∈ (["acct-42"] : List String) ∧ ¬ "" = ALL_ACCESS_CONTEXT ∧
      request_user_has_implicit_access_via_jwt [("enterprise_admin", ["coupon-management"])]
        (Option.some [("roles", ["enterprise_admin:acct-42"])]) "coupon-management"
        (Option.some "") = true) ∧
    (assocGet "coupon-management"
        (feature_roles_from_jwt [("enterprise_admin", ["coupon-management"])]
          [("roles", ["enterprise_admin:*"])]) = Option.some ["*"] ∧
      ¬ "acct-1" ∈ (["*"] : List String) ∧ ¬ "acct-1" = ALL_ACCESS_CONTEXT ∧
      request_user_has_implicit_access_via_jwt [("enterprise_admin", ["coupon-management"])]
        (Option.some [("roles", ["enterprise_admin:*"])]) "coupon-management"
        (Option.some "acct-1") = true) := by
  decide

/-- C1 (amended): for every token whose extracted feature-role map stores
the context list `cs` at the requested feature-role name, evaluation with
no context is granted; evaluation at each listed context is granted;
evaluation at a non-empty context outside `cs` is denied provided the
wildcard is not itself in `cs` (an empty-string context is treated as no
context and granted); and if the wildcard is in `cs`, evaluation at any
context is granted. -/
theorem claims_eval_present_role (mapping : SystemMapping) (T : Jwt) (R : String)
    (cs : List String) (c : String)
    (h : assocGet R (feature_roles_from_jwt mapping T) = Option.some cs) :
    request_user_has_implicit_access_via_jwt mapping (Option.some T) R Option.none = true ∧
    (c ∈ cs →
      request_user_has_implicit_access_via_jwt mapping (Option.some T) R (Option.some c) = true) ∧
    (c ∉ cs → c ≠ ALL_ACCESS_CONTEXT → ALL_ACCESS_CONTEXT ∉ cs → c ≠ "" →
      request_user_has_implicit_access_via_jwt mapping (Option.some T) R (Option.some c) = false) ∧
    (ALL_ACCESS_CONTEXT ∈ cs →
      request_user_has_implicit_access_via_jwt mapping (Option.some T) R (Option.some c) = true) := by
  have hT : T ≠ [] := by
    intro hT
    subst hT
    rw [feature_roles_empty] at h
    simp [assocGet] at h
  refine ⟨?_, ?_, ?_, ?_⟩
  · simp [request_user_has_implicit_access_via_jwt, hT, h, strTruthy]
  · intro hc
    by_cases hce : c = ""
    · subst hce
      simp [request_user_has_implicit_access_via_jwt, hT, h, strTruthy]
    · simp [request_user_has_implicit_access_via_jwt, hT, h, strTruthy, hce, hc]
  · intro hc hcw hw hce
    simp [request_user_has_implicit_access_via_jwt, hT, h, strTruthy, hce, hc, hw]
  · intro hw
    by_cases hce : c = ""
    · subst hce
      simp [request_user_has_implicit_access_via_jwt, hT, h, strTruthy]
    · simp [request_user_has_implicit_access_via_jwt, hT, h, strTruthy, hce, hw]

/-- Witness for C1 (amended) at Scenario A of the spec with the probe
context `acct-99`. -/
theorem claims_eval_present_role_witness :
    assocGet "coupon-management"
        (feature_roles_from_jwt [("enterprise_admin", ["coupon-management"])]
          [("roles", ["enterprise_admin:acct-42"])]) = Option.some ["acct-42"] ∧
    (request_user_has_implicit_access_via_jwt [("enterprise_admin", ["coupon-management"])]
        (Option.some [("roles", ["enterprise_admin:acct-42"])]) "coupon-management"
        Option.none = true ∧
      ("acct-99" ∈ (["acct-42"] : List String) →
        request_user_has_implicit_access_via_jwt [("enterprise_admin", ["coupon-management"])]
          (Option.some [("roles", ["enterprise_admin:acct-42"])]) "coupon-management"
          (Option.some "acct-99") = true) ∧
      ("acct-99" ∉ (["acct-42"] : List String) → "acct-99" ≠ ALL_ACCESS_CONTEXT →
        ALL_ACCESS_CONTEXT ∉ (["acct-42"] : List String) → "acct-99" ≠ "" →
        request_user_has_implicit_access_via_jwt [("enterprise_admin", ["coupon-management"])]
          (Option.some [("roles", ["enterprise_admin:acct-42"])]) "coupon-management"
          (Option.some "acct-99") = false) ∧
      (ALL_ACCESS_CONTEXT ∈ (["acct-42"] : List String) →
        request_user_has_implicit_access_via_jwt [("enterprise_admin", ["coupon-management"])]
          (Option.some [("roles", ["enterprise_admin:acct-42"])]) "coupon-management"
          (Option.some "acct-99") = true)) :=
  ⟨by decide, claims_eval_present_role _ _ _ _ "acct-99" (by decide)⟩

/-- C7: a user whose `is_anonymous` attribute is present and truthy is
denied on the persistence path for every role name, every collaborator and
every context, regardless of which assignments the collaborator would
return. -/
theorem db_eval_anonymous_denied (user : PyUser) (roleName : String)
    (filterAssignments : PyUser → String → List DbContext) (ctx : Option String)
    (h : user.is_anonymous.getD false = true) :
    user_has_access_via_database user roleName filterAssignments ctx = false := by
  simp [user_has_access_via_database, h]

/-- Witness for C7: an anonymous user with a matching assignment for the
exact requested context is still denied. -/
theorem db_eval_anonymous_denied_witness :
    (PyUser.mk (Option.some true)).is_anonymous.getD false = true ∧
    user_has_access_via_database (PyUser.mk (Option.some true)) "coupon-management"
      (fun _ _ => [DbContext.single "acct-1"]) (Option.some "acct-1") = false :=
  ⟨by decide, db_eval_anonymous_denied _ _ _ _ (by decide)⟩

/-- C10: the persistence-path evaluator denies immediately exactly when the
`is_anonymous` attribute is present and truthy; a user object lacking the
attribute takes the authenticated branch and is evaluated against the
queried role assignments. -/
theorem db_eval_missing_is_anonymous (user : PyUser) (roleName : String)
    (filterAssignments : PyUser → String → List DbContext) (ctx : Option String) :
    user_has_access_via_database user roleName filterAssignments ctx =
      if user.is_anonymous = Option.some true then false
      else assignmentsDecision (filterAssignments user roleName) ctx := by
  rcases user with ⟨anon⟩
  cases anon with
  | none => simp [user_has_access_via_database]
  | some b => cases b <;> simp [user_has_access_via_database]

/-- Counterexample to C3 as stated: with one assignment resolving to the
context list `["acct-1", "acct-2"]`, evaluation at the empty-string context
is granted although that context is neither in the accumulated set nor the
wildcard (the code treats a falsy context as "no context supplied"); and an
anonymous user is denied although the requested context is in the set. -/
theorem db_eval_context_set_cex :
    (user_has_access_via_database (PyUser.mk Option.none) "coupon-management"
        (fun _ _ => [DbContext.many ["acct-1", "acct-2"]]) (Option.some "") = true ∧
      ¬ ("" ∈ allAssignedContexts [DbContext.many ["acct-1", "acct-2"]] ∨
          ALL_ACCESS_CONTEXT ∈ allAssignedContexts [DbContext.many ["acct-1", "acct-2"]])) ∧
    (user_has_access_via_database (PyUser.mk (Option.some true)) "coupon-management"
        (fun _ _ => [DbContext.many ["acct-1", "acct-2"]]) (Option.some "acct-1") = false ∧
      "acct-1" ∈ allAssignedContexts [DbContext.many ["acct-1", "acct-2"]]) := by
  decide

/-- C3 (amended): for every non-anonymous user, evaluation with an empty
queryset is denied for every context; with a non-empty queryset and no
context supplied it is granted; and with a non-empty queryset and a
non-empty context `c` it is granted exactly when `c` or the wildcard lies
in the union of the resolved context values of all matching assignments
(scalar values contribute themselves, collections contribute their
elements; an empty-string context is treated as no context and granted;
anonymous users are denied regardless, per C7). -/
theorem db_eval_context_set (user : PyUser) (roleName : String)
    (filterAssignments : PyUser → String → List DbContext) (c : String) (ctx : Option String)
    (hauth : user.is_anonymous.getD false = false) :
    (filterAssignments user roleName = [] →
      user_has_access_via_database user roleName filterAssignments ctx = false) ∧
    (filterAssignments user roleName ≠ [] →
      user_has_access_via_database user roleName filterAssignments Option.none = true) ∧
    (filterAssignments user roleName ≠ [] → c ≠ "" →
      (user_has_access_via_database user roleName filterAssignments (Option.some c) = true ↔
        c ∈ allAssignedContexts (filterAssignments user roleName) ∨
          ALL_ACCESS_CONTEXT ∈ allAssignedContexts (filterAssignments user roleName))) := by
  refine ⟨?_, ?_, ?_⟩
  · intro he
    simp [user_has_access_via_database, hauth, assignmentsDecision, he]
  · intro hne
    simp [user_has_access_via_database, hauth, assignmentsDecision, hne, strTruthy]
  · intro hne hce
    simp [user_has_access_via_database, hauth, assignmentsDecision, hne, strTruthy, hce]

/-- Witness for C3 (amended) at Scenario C of the spec: one assignment with
context list `["acct-1", "acct-2"]`, probed at `acct-2`. -/
theorem db_eval_context_set_witness :
    (PyUser.mk (Option.some false)).is_anonymous.getD false = false ∧
    (((fun (_ : PyUser) (_ : String) => [DbContext.many ["acct-1", "acct-2"]])
          (PyUser.mk (Option.some false)) "coupon-management" = [] →
        user_has_access_via_database (PyUser.mk (Option.some false)) "coupon-management"
          (fun _ _ => [DbContext.many ["acct-1", "acct-2"]]) (Option.some "acct-2") = false) ∧
      ((fun (_ : PyUser) (_ : String) => [DbContext.many ["acct-1", "acct-2"]])
          (PyUser.mk (Option.some false)) "coupon-management" ≠ [] →
        user_has_access_via_database (PyUser.mk (Option.some false)) "coupon-management"
          (fun _ _ => [DbContext.many ["acct-1", "acct-2"]]) Option.none = true) ∧
      ((fun (_ : PyUser) (_ : String) => [DbContext.many ["acct-1", "acct-2"]])
          (PyUser.mk (Option.some false)) "coupon-management" ≠ [] → "acct-2" ≠ "" →
        (user_has_access_via_database (PyUser.mk (Option.some false)) "coupon-management"
            (fun _ _ => [DbContext.many ["acct-1", "acct-2"]]) (Option.some "acct-2") = true ↔
          "acct-2" ∈ allAssignedContexts
              ((fun (_ : PyUser) (_ : String) => [DbContext.many ["acct-1", "acct-2"]])
                (PyUser.mk (Option.some false)) "coupon-management") ∨
            ALL_ACCESS_CONTEXT ∈ allAssignedContexts
              ((fun (_ : PyUser) (_ : String) => [DbContext.many ["acct-1", "acct-2"]])
                (PyUser.mk (Option.some false)) "coupon-management")))) :=
  ⟨by decide,
    db_eval_context_set (PyUser.mk (Option.some false)) "coupon-management"
      (fun _ _ => [DbContext.many ["acct-1", "acct-2"]]) "acct-2" (Option.some "acct-2")
      (by decide)⟩

/-! Lemmas about the Claim Builder and the round trip. -/

/-- Folding the per-item append over an iterable context appends, per item,
the contextual role string for a non-empty item and the bare role string
for an empty one. -/
theorem foldl_append_claim (roleString : String) (items : List String) (cl : List String) :
    items.foldl (fun acc item => append_role_auth_claim acc roleString (Option.some item)) cl
      = cl ++ items.map (fun item =>
          if item = "" then roleString else roleString ++ ":" ++ item) := by
  induction items generalizing cl with
  | nil => simp
  | cons a rest ih =>
    rw [List.foldl_cons, ih]
    by_cases h : a = "" <;>
      simp [append_role_auth_claim, strTruthy, h, List.append_assoc]

/-- The per-pair builder step only appends; `pairClaimEntries` is what it
appends. -/
theorem processRolePair_eq_append (cl : List String) (r : String) (ctx : PyContext) :
    processRolePair cl r ctx = cl ++ pairClaimEntries r ctx := by
  cases ctx with
  | null => simp [processRolePair, pairClaimEntries, append_role_auth_claim, strTruthy]
  | str s =>
    by_cases h : s = "" <;>
      simp [processRolePair, pairClaimEntries, append_role_auth_claim, strTruthy, h]
  | many items =>
    by_cases h : items = []
    · simp [processRolePair, pairClaimEntries, append_role_auth_claim, strTruthy, h]
    · simp [processRolePair, pairClaimEntries, h, foldl_append_claim]

/-- The claim list built from a source's yielded pairs is the concatenation
of the per-pair entries, in yield order. -/
theorem buildRoleAuthClaim_eq_flatMap (pairs : List (String × PyContext)) :
    buildRoleAuthClaim pairs = pairs.flatMap (fun p => pairClaimEntries p.1 p.2) := by
  have key : ∀ (l : List (String × PyContext)) (init : List String),
      l.foldl (fun cl p => processRolePair cl p.1 p.2) init
        = init ++ l.flatMap (fun p => pairClaimEntries p.1 p.2) := by
    intro l
    induction l with
    | nil => intro init; simp
    | cons p rest ih =>
      intro init
      rw [List.foldl_cons, ih, processRolePair_eq_append, List.flatMap_cons, List.append_assoc]
  simpa [buildRoleAuthClaim] using key pairs []

/-- Partitioning a character list not containing the separator returns the
whole list and an empty remainder. -/
theorem partitionAux_of_not_mem (sep : Char) (l : List Char) (h : sep ∉ l) :
    partitionAux sep l = (l, []) := by
  induction l with
  | nil => rfl
  | cons c cs ih =>
    have hc : ¬ c = sep := fun hh => h (hh ▸ List.mem_cons_self c cs)
    simp [partitionAux, hc, ih (fun hh => h (List.mem_cons_of_mem c hh))]

/-- Partitioning splits at the first separator occurrence. -/
theorem partitionAux_append (sep : Char) (l1 l2 : List Char) (h : sep ∉ l1) :
    partitionAux sep (l1 ++ sep :: l2) = (l1, l2) := by
  induction l1 with
  | nil => simp [partitionAux]
  | cons c cs ih =>
    have hc : ¬ c = sep := fun hh => h (hh ▸ List.mem_cons_self c cs)
    simp [partitionAux, hc, ih (fun hh => h (List.mem_cons_of_mem c hh))]

/-- `partition(':')` of a colon-free role string yields the role and an
empty context. -/
theorem pyPartition_no_colon (r : String) (h : ':' ∉ r.toList) :
    pyPartition r ':' = (r, "") := by
  unfold pyPartition
  rw [partitionAux_of_not_mem ':' r.toList h]
  rfl

/-- `partition(':')` of a contextual role string with a colon-free role
recovers the role and the full context, even when the context itself
contains colons. -/
theorem pyPartition_role_context (r ctx : String) (h : ':' ∉ r.toList) :
    pyPartition (r ++ ":" ++ ctx) ':' = (r, ctx) := by
  have hl : (r ++ ":" ++ ctx).toList = r.toList ++ ':' :: ctx.toList := by
    simp [String.toList]
  unfold pyPartition
  rw [hl, partitionAux_append ':' r.toList ctx.toList h]
  rfl

/-- Extraction contributions of the claim entries built for one yielded
pair: for a colon-free role string they are exactly the advertised
contexts, each filtered through the configured mapping. -/
theorem flatMap_entryContexts_pairClaimEntries (mapping : SystemMapping) (F r : String)
    (ctx : PyContext) (h : ':' ∉ r.toList) :
    (pairClaimEntries r ctx).flatMap (entryContexts mapping F)
      = (yieldedContexts ctx).flatMap (fun item =>
          ((assocGet r mapping).getD []).filterMap
            (fun f => if f = F then Option.some item else Option.none)) := by
  cases ctx with
  | null =>
    simp [pairClaimEntries, processRolePair, append_role_auth_claim, strTruthy,
      yieldedContexts, entryContexts, pyPartition_no_colon r h]
  | str s =>
    by_cases hs : s = ""
    · subst hs
      simp [pairClaimEntries, processRolePair, append_role_auth_claim, strTruthy,
        yieldedContexts, entryContexts, pyPartition_no_colon r h]
    · simp [pairClaimEntries, processRolePair, append_role_auth_claim, strTruthy, hs,
        yieldedContexts, entryContexts, pyPartition_role_context r s h]
  | many items =>
    by_cases hi : items = []
    · subst hi
      simp [pairClaimEntries, processRolePair, append_role_auth_claim, strTruthy,
        yieldedContexts, entryContexts, pyPartition_no_colon r h]
    · have hentries : pairClaimEntries r (PyContext.many items)
          = items.map (fun item => if item = "" then r else r ++ ":" ++ item) := by
        simp [pairClaimEntries, processRolePair, hi, foldl_append_claim]
      rw [hentries, List.flatMap_map]
      simp only [yieldedContexts, hi, if_neg hi]
      apply List.flatMap_congr
      intro item _
      by_cases hit : item = ""
      · subst hit
        simp [entryContexts, pyPartition_no_colon r h]
      · simp [hit, entryContexts, pyPartition_role_context r item h]

/-- C4 (amended): per yielded (role-string, context) pair, the Claim
Builder appends the bare role string when the context is `None`, the empty
string or an empty iterable; the single string `role:context` when the
context is a non-empty scalar string; and, for a non-empty non-string
iterable, one entry per item in iteration order — `role:item` for a
non-empty item and the bare role string for an empty-string item. -/
theorem claim_builder_pair_output (cl : List String) (roleString s : String)
    (items : List String) :
    processRolePair cl roleString PyContext.null = cl ++ [roleString] ∧
    processRolePair cl roleString (PyContext.str "") = cl ++ [roleString] ∧
    processRolePair cl roleString (PyContext.many []) = cl ++ [roleString] ∧
    (s ≠ "" → processRolePair cl roleString (PyContext.str s)
      = cl ++ [roleString ++ ":" ++ s]) ∧
    (items ≠ [] → processRolePair cl roleString (PyContext.many items)
      = cl ++ items.map (fun item =>
          if item = "" then roleString else roleString ++ ":" ++ item)) := by
  refine ⟨?_, ?_, ?_, ?_, ?_⟩
  · simp [processRolePair, append_role_auth_claim, strTruthy]
  · simp [processRolePair, append_role_auth_claim, strTruthy]
  · simp [processRolePair, append_role_auth_claim, strTruthy]
  · intro h
    simp [processRolePair, append_role_auth_claim, strTruthy, h]
  · intro h
    simp [processRolePair, h, foldl_append_claim]

/-- Counterexample to C4 as stated: a non-string iterable containing the
empty string produces the bare role string for that item, not
`"role:"`. -/
theorem claim_builder_pair_output_cex :
    processRolePair [] "coupon-manager" (PyContext.many ["acct-1", ""])
      = ["coupon-manager:acct-1", "coupon-manager"] ∧
    ¬ ("coupon-manager" : String) = "coupon-manager:" := by
  decide

/-- Witness for C4 (amended) at Scenario D of the spec. -/
theorem claim_builder_pair_output_witness :
    processRolePair [] "coupon-manager" PyContext.null = [] ++ ["coupon-manager"] ∧
    processRolePair [] "coupon-manager" (PyContext.str "") = [] ++ ["coupon-manager"] ∧
    processRolePair [] "coupon-manager" (PyContext.many []) = [] ++ ["coupon-manager"] ∧
    ("acct-1" ≠ "" → processRolePair [] "coupon-manager" (PyContext.str "acct-1")
      = [] ++ ["coupon-manager" ++ ":" ++ "acct-1"]) ∧
    ((["acct-1", "acct-2"] : List String) ≠ [] →
      processRolePair [] "coupon-manager" (PyContext.many ["acct-1", "acct-2"])
        = [] ++ (["acct-1", "acct-2"] : List String).map (fun item =>
            if item = "" then "coupon-manager" else "coupon-manager" ++ ":" ++ item)) :=
  claim_builder_pair_output [] "coupon-manager" "acct-1" ["acct-1", "acct-2"]

/-- C8: resolving a role source locator tries the callable path first and
uses its result when it succeeds; only when that path fails does it fall
back to the model path, and a failure of the fallback propagates out of the
Claim Builder instead of being swallowed. -/
theorem role_source_resolution_order (env : ResolutionEnv) (loc : String) (user : PyUser)
    (roleFunc : RoleFunc) (e : String) :
    (env.importCallable loc = Option.some roleFunc →
      resolveRoleSource env loc = Except.ok roleFunc) ∧
    (env.importCallable loc = Option.none →
      resolveRoleSource env loc = env.getModel loc) ∧
    (env.importCallable loc = Option.none → env.getModel loc = Except.error e →
      create_role_auth_claim_for_user env [loc] user = Except.error e) := by
  refine ⟨?_, ?_, ?_⟩
  · intro h
    simp [resolveRoleSource, h]
  · intro h
    simp [resolveRoleSource, h]
  · intro h he
    simp [create_role_auth_claim_for_user, resolveRoleSource, h, he, List.foldlM]

/-- Witness for C8: a locator that resolves to neither a callable nor a
model makes the Claim Builder surface the model-resolution failure. -/
theorem role_source_resolution_order_witness :
    (ResolutionEnv.mk (fun _ => Option.none)
        (fun _ => Except.error "LookupError")).importCallable "app_label.ModelName"
      = Option.none ∧
    (ResolutionEnv.mk (fun _ => Option.none)
        (fun _ => Except.error "LookupError")).getModel "app_label.ModelName"
      = Except.error "LookupError" ∧
    create_role_auth_claim_for_user
        (ResolutionEnv.mk (fun _ => Option.none) (fun _ => Except.error "LookupError"))
        ["app_label.ModelName"] (PyUser.mk (Option.some false)) = Except.error "LookupError" :=
  ⟨rfl, rfl,
    (role_source_resolution_order
        (ResolutionEnv.mk (fun _ => Option.none) (fun _ => Except.error "LookupError"))
        "app_label.ModelName" (PyUser.mk (Option.some false)) (fun _ => [])
        "LookupError").2.2 rfl rfl⟩

/-- C9: building a user's claim list from a source yielding `pairs` (with
colon-free role strings, as the role claim entry format requires) and then
extracting from a token whose `roles` entry is exactly that list reproduces,
for every feature role, exactly the context associations the source
advertised under the configured system-to-feature mapping (with `None` and
empty iterables represented by the empty unscoped context string). -/
theorem round_trip_extraction (mapping : SystemMapping) (env : ResolutionEnv) (loc : String)
    (pairs : List (String × PyContext)) (user : PyUser) (F : String)
    (hres : env.importCallable loc = Option.some (fun _ => pairs))
    (hcolon : ∀ p ∈ pairs, ':' ∉ (p.1 : String).toList) :
    create_role_auth_claim_for_user env [loc] user = Except.ok (buildRoleAuthClaim pairs) ∧
    (assocGet F (feature_roles_from_jwt mapping
        [("roles", buildRoleAuthClaim pairs)])).getD []
      = advertisedContexts mapping F pairs := by
  constructor
  · simp [create_role_auth_claim_for_user, resolveRoleSource, hres, List.foldlM,
      buildRoleAuthClaim]
  · rw [getD_feature_roles]
    have hroles : ((assocGet "roles" [("roles", buildRoleAuthClaim pairs)]).getD [])
        = buildRoleAuthClaim pairs := by
      simp [assocGet]
    simp only [featureRoleContextsSpec]
    rw [hroles, buildRoleAuthClaim_eq_flatMap, List.flatMap_assoc]
    simp only [advertisedContexts]
    apply List.flatMap_congr
    intro p hp
    exact flatMap_entryContexts_pairClaimEntries mapping F p.1 p.2 (hcolon p hp)

/-- Witness for C9 with the Scenario D source: one pair advertising the
contexts `["acct-1", "acct-2"]` for `coupon-manager`, mapped to
`coupon-management`. -/
theorem round_trip_extraction_witness :
    (ResolutionEnv.mk
        (fun _ => Option.some
          (fun _ => [("coupon-manager", PyContext.many ["acct-1", "acct-2"])]))
        (fun _ => Except.error "unused")).importCallable "app.get_roles"
      = Option.some (fun _ => [("coupon-manager", PyContext.many ["acct-1", "acct-2"])]) ∧
    (create_role_auth_claim_for_user
        (ResolutionEnv.mk
          (fun _ => Option.some
            (fun _ => [("coupon-manager", PyContext.many ["acct-1", "acct-2"])]))
          (fun _ => Except.error "unused"))
        ["app.get_roles"] (PyUser.mk (Option.some false))
      = Except.ok (buildRoleAuthClaim
          [("coupon-manager", PyContext.many ["acct-1", "acct-2"])]) ∧
    (assocGet "coupon-management" (feature_roles_from_jwt
        [("coupon-manager", ["coupon-management"])]
        [("roles", buildRoleAuthClaim
          [("coupon-manager", PyContext.many ["acct-1", "acct-2"])])])).getD []
      = advertisedContexts [("coupon-manager", ["coupon-management"])] "coupon-management"
          [("coupon-manager", PyContext.many ["acct-1", "acct-2"])]) :=
  ⟨rfl,
    round_trip_extraction [("coupon-manager", ["coupon-management"])]
      (ResolutionEnv.mk
        (fun _ => Option.some
          (fun _ => [("coupon-manager", PyContext.many ["acct-1", "acct-2"])]))
        (fun _ => Except.error "unused"))
      "app.get_roles" [("coupon-manager", PyContext.many ["acct-1", "acct-2"])]
      (PyUser.mk (Option.some false)) "coupon-management" rfl (by decide)⟩

end EdxRbac
